import Mathlib

/-!
# Ghostwriter core — shallow embedding and verification

A shallow embedding of the coordination core of the `ghostwriter`
article-generation pipeline (package `pkg/article`): the planner's plan
validation, the knowledge base, the orchestrator's round trips and
concurrent section writing, and the progress tracker.

Conventions of the embedding:
* Go `int` is modelled as `Int`; `float64` and `time.Duration` quantities are
  modelled exactly over `ℚ` (the code does real-valued arithmetic on them and
  no claim depends on rounding of `float64` or truncation to nanoseconds).
* A Go method returning `(T, error)` is modelled as `T × Option String`
  (Go's zero value together with a message on failure) or as
  `Except String T` when the zero value is never observed by a caller.
* The Go map `map[string]ResearchDocument` is modelled as an association
  list with insert-or-replace semantics.
* External collaborators (the bleve search engine, the LLM client) are
  modelled as explicit inputs: the outcome of `kb.index.Index` and the hit
  list returned by `kb.index.Search` are parameters of the corresponding
  operations, constrained only by the collaborator's documented contract.
-/

namespace Ghostwriter

/-! ## Data model (`pkg/article` event/data types) -/

/-- `DocumentSection` — a section in the article plan
(fields as used by `PlannerHandler` and the orchestrator). -/
structure DocumentSection where
  id : String
  title : String
  description : String
  keyPoints : List String
  wordCount : Int
  priority : Int
  deriving Repr, DecidableEq

/-- `DocumentPlan` — the complete article structure produced by the planner. -/
structure DocumentPlan where
  title : String
  summary : String
  sections : List DocumentSection
  totalWords : Int
  keywords : List String
  deriving Repr, DecidableEq

/-- `SectionContent` — completed content for one section. -/
structure SectionContent where
  sectionID : String
  title : String
  content : String
  sources : List String
  wordCount : Int
  writtenBy : String
  completedAt : ℚ
  deriving Repr, DecidableEq

/-- Go zero value of `SectionContent` (the pre-sized result slots of
`writeSections` start out holding it). -/
def zeroSectionContent : SectionContent :=
  { sectionID := "", title := "", content := "", sources := []
    wordCount := 0, writtenBy := "", completedAt := 0 }

/-- `ArticleDocument` — the final article returned by `WriteArticle`. -/
structure ArticleDocument where
  title : String
  wordCount : Int
  keywords : List String
  sources : List String
  summary : String
  content : String
  sections : List SectionContent
  createdAt : ℚ
  completedAt : ℚ
  deriving Repr, DecidableEq

/-- Go zero value `ArticleDocument{}`, returned alongside every error of
`WriteArticle`. -/
def zeroArticleDocument : ArticleDocument :=
  { title := "", wordCount := 0, keywords := [], sources := []
    summary := "", content := "", sections := [], createdAt := 0, completedAt := 0 }

/-! ## Planner (`PlannerHandler.validatePlan` / `parsePlanResponse`) -/

/-- The per-section loop of `validatePlan`: walks `plan.Sections` with index
`i`, rejecting an empty title or a non-positive word count, and accumulates
`totalWords += section.WordCount`. -/
def validateSectionsLoop : Nat → List DocumentSection → Except String Int
  | _, [] => .ok 0
  | i, s :: rest =>
    if s.title = "" then
      .error ("section " ++ toString i ++ " must have a title")
    else if s.wordCount ≤ 0 then
      .error ("section " ++ toString i ++ " must have a positive word count")
    else do
      let t ← validateSectionsLoop (i + 1) rest
      .ok (s.wordCount + t)

/-- `PlannerHandler.validatePlan`. The Go method receives `plan` **by value**
and returns only `error`; its final `plan.TotalWords = totalWords` assignment
(`// Update total words if not set or inconsistent`) writes to the local copy,
which is discarded, so the validated total never reaches the caller. The
embedding mirrors the observable behaviour: only the error is produced. -/
def validatePlan (plan : DocumentPlan) : Except String Unit :=
  if plan.title = "" then
    .error "document plan must have a title"
  else if plan.sections = [] then
    .error "document plan must have at least one section"
  else do
    let _totalWords ← validateSectionsLoop 0 plan.sections
    .ok ()

/-- `generateSectionID`: lowercases the title, replaces spaces with
underscores and strips every character outside `[a-z0-9_]`. The `index`
argument is unused by the Go function. -/
def generateSectionID (_index : Nat) (title : String) : String :=
  let cleanTitle := (title.replace " " "_").toLower
  String.mk (cleanTitle.toList.filter fun c =>
    (decide (('a' ≤ c ∧ c ≤ 'z') ∨ ('0' ≤ c ∧ c ≤ '9') ∨ c = '_')))

/-- The ID-filling loop of `parsePlanResponse` (`for i := range plan.Sections`):
a section whose ID is empty receives `generateSectionID(i, title)`. -/
def fillSectionIDsLoop : Nat → List DocumentSection → List DocumentSection
  | _, [] => []
  | i, s :: rest =>
    (if s.id = "" then { s with id := generateSectionID i s.title } else s) ::
      fillSectionIDsLoop (i + 1) rest

/-- `parsePlanResponse`'s ID filling applied to a whole plan. -/
def fillSectionIDs (plan : DocumentPlan) : DocumentPlan :=
  { plan with sections := fillSectionIDsLoop 0 plan.sections }

/-- The first branch of `PlannerHandler.parsePlanResponse`, applied once
`llm.ParseJSON[DocumentPlan]` (an external collaborator) has produced `plan`:
if `validatePlan plan` succeeds, missing section IDs are generated and the
plan is returned **unchanged otherwise** — in particular with its original
`TotalWords`. -/
def parsePlanKnownFormat (plan : DocumentPlan) : Option DocumentPlan :=
  match validatePlan plan with
  | .ok _ => some (fillSectionIDs plan)
  | .error _ => none

/-- The sum `Σ section.WordCount` the spec's invariant is stated about. -/
def sectionWordSum (plan : DocumentPlan) : Int :=
  (plan.sections.map DocumentSection.wordCount).sum

/-- The three-section scenario of the spec: ("Intro",100), ("Body",300),
("Conclusion",100), `TotalWords` initially 0. -/
def scenarioPlan : DocumentPlan :=
  { title := "Test Article"
    summary := ""
    sections :=
      [ { id := "intro", title := "Intro", description := "", keyPoints := []
          wordCount := 100, priority := 1 }
      , { id := "body", title := "Body", description := "", keyPoints := []
          wordCount := 300, priority := 2 }
      , { id := "conclusion", title := "Conclusion", description := ""
          keyPoints := [], wordCount := 100, priority := 3 } ]
    totalWords := 0
    keywords := [] }

/-! ## KnowledgeBase (`knowledge_base.go`) -/

/-- `ResearchDocument` — a single piece of research data. `Relevance`
(`float64`) is modelled over `ℚ`. -/
structure ResearchDocument where
  id : String
  url : String
  title : String
  content : String
  keywords : List String
  sourceType : String
  relevance : ℚ
  deriving Repr, DecidableEq

/-- Go zero value `ResearchDocument{}`, returned alongside the error of
`GetByID`. -/
def zeroResearchDocument : ResearchDocument :=
  { id := "", url := "", title := "", content := "", keywords := []
    sourceType := "", relevance := 0 }

/-- Insert-or-replace into the association-list model of
`map[string]ResearchDocument` (`kb.documents[doc.ID] = doc`). -/
def mapInsert (m : List (String × ResearchDocument)) (k : String)
    (v : ResearchDocument) : List (String × ResearchDocument) :=
  if m.any (fun p => p.1 = k) then
    m.map (fun p => if p.1 = k then (k, v) else p)
  else
    m ++ [(k, v)]

/-- Lookup in the association-list model of the document map. -/
def mapLookup (m : List (String × ResearchDocument)) (k : String) :
    Option ResearchDocument :=
  (m.find? (fun p => p.1 = k)).map Prod.snd

/-- `KnowledgeBase` state: the ID-keyed document map and the set of IDs held
by the bleve index (`kb.index`), indexed on success of `kb.index.Index`.
The `sync.RWMutex` serializes every operation, so each operation of the
embedding is one atomic state transition. -/
structure KnowledgeBase where
  documents : List (String × ResearchDocument)
  indexed : List String
  subject : String
  deriving Repr, DecidableEq

/-- `NewKnowledgeBase(subject)` — empty map, empty index. -/
def newKnowledgeBase (subject : String) : KnowledgeBase :=
  { documents := [], indexed := [], subject := subject }

/-- `KnowledgeBase.AddDocument`. Under the exclusive lock the Go method first
stores `kb.documents[doc.ID] = doc`, then calls `kb.index.Index(doc.ID, doc)`
(bleve, external — its outcome is the `indexResult` parameter). On an index
error the wrapped error is returned, but the map insertion is **not** rolled
back. -/
def addDocument (kb : KnowledgeBase) (doc : ResearchDocument)
    (indexResult : Except String Unit) : KnowledgeBase × Option String :=
  let kb' : KnowledgeBase := { kb with documents := mapInsert kb.documents doc.id doc }
  match indexResult with
  | .error e => (kb', some e)
  | .ok _ => ({ kb' with indexed := kb'.indexed ++ [doc.id] }, none)

/-- The hit loop shared by `Search` / `FindByKeywords` / `FindBySourceType`:
for each bleve hit `(id, score)` in engine order, a document present in the
map is emitted with `Relevance` overwritten by the hit's score; hits whose ID
is absent from the map are skipped. -/
def collectHits (kb : KnowledgeBase) (hits : List (String × ℚ)) :
    List ResearchDocument :=
  hits.filterMap fun h =>
    match mapLookup kb.documents h.1 with
    | some doc => some { doc with relevance := h.2 }
    | none => none

/-- `KnowledgeBase.Search(query, limit)`. The bleve engine is external: its
reply to a request with `Size = limit` is the `engineResult` parameter — either
an error (propagated wrapped) or a hit list, which bleve caps at `Size`. -/
def search (kb : KnowledgeBase)
    (engineResult : Except String (List (String × ℚ))) :
    Except String (List ResearchDocument) :=
  match engineResult with
  | .error e => .error e
  | .ok hits => .ok (collectHits kb hits)

/-- `KnowledgeBase.GetByID(id)`: the document from the map, or the Go zero
value together with a "not found" error. A read-only operation (taken under
the shared lock): it returns no new state. -/
def getByID (kb : KnowledgeBase) (id : String) :
    ResearchDocument × Option String :=
  match mapLookup kb.documents id with
  | some doc => (doc, none)
  | none => (zeroResearchDocument, some ("document with ID " ++ id ++ " not found"))

/-- A knowledge base built from `NewKnowledgeBase` by a sequence of
`AddDocument` calls, each paired with the outcome of its bleve indexing. -/
def buildKB (subject : String)
    (adds : List (ResearchDocument × Except String Unit)) : KnowledgeBase :=
  adds.foldl (fun kb p => (addDocument kb p.1 p.2).1) (newKnowledgeBase subject)

/-! ## Orchestrator round trips (`orchestrator.go`) -/

/-- An event arriving on an agent's output channel. Event and origin
identities (`agent.EventID`) are modelled as `Nat`; `originId` is optional
because an initiating event carries no origin. -/
inductive AgentEvent where
  | documentPlan (id : Nat) (originId : Option Nat) (plan : DocumentPlan)
  | sectionContent (id : Nat) (originId : Option Nat) (content : SectionContent)
  | finalArticle (id : Nat) (originId : Option Nat) (article : ArticleDocument)
  | message (id : Nat) (text : String)
  deriving Repr, DecidableEq

/-- The receive branch of `Orchestrator.generatePlan`: the event taken from
`plannerAgent.Output()` is accepted as the plan only when it is a
`DocumentPlanEvent` **and** `planEvent.Origin().ID() == planRequest.ID()`;
every other case falls through to the protocol error. -/
def receivePlanResponse (reqId : Nat) (evt : AgentEvent) :
    Except String DocumentPlan :=
  match evt with
  | .documentPlan _ originId plan =>
    if originId = some reqId then .ok plan
    else .error "unexpected event type from planner"
  | _ => .error "unexpected event type from planner"

/-- The receive branch of `Orchestrator.writeSection`: any
`SectionContentEvent` taken from `writerAgent.Output()` is accepted —
the event's `Origin()` is never compared with the assignment's ID. The
`reqId` parameter is the ID of the `SectionAssignmentEvent` that was sent;
the Go code does not consult it here. -/
def receiveSectionResponse (_reqId : Nat) (evt : AgentEvent) :
    Except String SectionContent :=
  match evt with
  | .sectionContent _ _ content => .ok content
  | _ => .error "unexpected event type from writer"

/-- The receive branch of `Orchestrator.editArticle`: any `FinalArticleEvent`
taken from `editorAgent.Output()` is accepted — the event's `Origin()` is
never compared with the edit request's ID. -/
def receiveEditResponse (_reqId : Nat) (evt : AgentEvent) :
    Except String ArticleDocument :=
  match evt with
  | .finalArticle _ _ article => .ok article
  | _ => .error "unexpected event type from editor"

/-! ## Orchestrator section fan-out (`Orchestrator.writeSections`)

Each of the `n` goroutines either records an error (`writeErr`, first one
wins under `mu`) or stores its `SectionContent` into the pre-assigned slot
`sections[index]`. The interleaving is modelled by `order`, the sequence in
which the goroutines reach their `mu`-protected critical section; the
per-goroutine outcome of `o.writeSection` is the `outcome` parameter
(the writer agents are external collaborators). -/

/-- The `mu`-protected aggregation state of `writeSections`:
the pre-sized result slice (a slot is `none` until its goroutine stores into
it), the first recorded error, and the completed-section counter. -/
structure WriteState where
  sections : List (Option SectionContent)
  writeErr : Option String
  completed : Nat
  deriving Repr, DecidableEq

/-- One goroutine's critical section: on error, `writeErr` is set only if
still `nil`; on success, `sections[index] = content` and
`completedSections++`. -/
def writeTaskStep (outcome : Nat → Except String SectionContent)
    (st : WriteState) (index : Nat) : WriteState :=
  match outcome index with
  | .error e =>
    { st with writeErr := match st.writeErr with | some e0 => some e0 | none => some e }
  | .ok content =>
    { st with
      sections := st.sections.set index (some content)
      completed := st.completed + 1 }

/-- The aggregation state of `writeSections` once `wg.Wait()` returns: the
goroutines' critical sections folded in completion order over the initial
state (`make([]SectionContent, n)`, no error, zero count). -/
def writeSectionsState (n : Nat) (outcome : Nat → Except String SectionContent)
    (order : List Nat) : WriteState :=
  order.foldl (writeTaskStep outcome)
    { sections := List.replicate n none, writeErr := none, completed := 0 }

/-- `Orchestrator.writeSections` after `wg.Wait()`: if any error was recorded
return it wrapped — together with Go's `nil` slice, which the `Except.error`
branch carries no list for — else return the assembled slice, unwritten slots
holding the Go zero value. -/
def writeSections (n : Nat) (outcome : Nat → Except String SectionContent)
    (order : List Nat) : Except String (List SectionContent) :=
  match (writeSectionsState n outcome order).writeErr with
  | some e => .error e
  | none =>
    .ok ((writeSectionsState n outcome order).sections.map
      (fun s => s.getD zeroSectionContent))

/-- The first error recorded by `writeSections`' goroutines: the error of the
earliest task in completion order whose `o.writeSection` call failed. -/
def firstRecordedError (outcome : Nat → Except String SectionContent)
    (order : List Nat) : Option String :=
  order.findSome? fun i =>
    match outcome i with
    | .error e => some e
    | .ok _ => none

/-- `Orchestrator.WriteArticle`, phase composition: each phase failure returns
`(ArticleDocument{}, err)` at once. The planning and editing phases are round
trips to external agents, so their results are parameters; the writing phase
is `writeSections`. -/
def writeArticleRun (planResult : Except String DocumentPlan)
    (outcome : Nat → Except String SectionContent) (order : List Nat)
    (editResult : DocumentPlan → List SectionContent → Except String ArticleDocument) :
    ArticleDocument × Option String :=
  match planResult with
  | .error e => (zeroArticleDocument, some e)
  | .ok plan =>
    match writeSections plan.sections.length outcome order with
    | .error e => (zeroArticleDocument, some e)
    | .ok sections =>
      match editResult plan sections with
      | .error e => (zeroArticleDocument, some e)
      | .ok article => (article, none)

/-! ## Writer-concurrency limiter (`semaphore := make(chan struct{}, K)`)

`writeSections` bounds mid-flight section writes with a buffered channel of
capacity `MaxConcurrentWriters` used as a counting semaphore: a goroutine
sends one token before writing (`semaphore <- struct{}{}`, blocking while the
buffer is full) and receives it back when done (`<-semaphore`). A state is
the number of goroutines currently holding a token. -/

/-- Semaphore operations: a goroutine acquiring (channel send) or releasing
(channel receive) the limiter. -/
inductive SemOp where
  | acquire
  | release
  deriving Repr, DecidableEq

/-- One transition of the capacity-`k` buffered channel: a send succeeds only
while fewer than `k` tokens are buffered (otherwise the sender blocks — no
transition), a receive only while some token is buffered. -/
def semStep (k : Nat) (holders : Nat) : SemOp → Option Nat
  | .acquire => if holders < k then some (holders + 1) else none
  | .release => if 0 < holders then some (holders - 1) else none

/-- The holder counts reachable in `writeSections` from the initial empty
semaphore, by any interleaving of acquires and releases. -/
inductive SemReachable (k : Nat) : Nat → Prop
  | init : SemReachable k 0
  | step {h h' : Nat} (op : SemOp) :
      SemReachable k h → semStep k h op = some h' → SemReachable k h'

/-! ## ProgressTracker (`progress.go`) -/

/-- `ProgressPhase` values. -/
inductive ProgressPhase where
  | initializing
  | researching
  | planning
  | writing
  | editing
  | attributing
  | completed
  deriving Repr, DecidableEq

/-- The fields of a `ProgressEvent` that `EmitProgress` computes
(identity, context and the details bag carry no arithmetic content). -/
structure ProgressEventData where
  phase : ProgressPhase
  step : String
  progress : ℚ
  elapsedTime : ℚ
  estimatedTimeRemaining : ℚ
  deriving Repr, DecidableEq

/-- `ProgressTracker.EmitProgress`: a no-op without a registered callback;
otherwise exactly one event is passed to the callback, with
`elapsed = now - startTime` and, for `0 < progress < 1`,
`estimatedRemaining = elapsed/progress - elapsed` (zero-valued otherwise). -/
def emitProgress (callbackRegistered : Bool) (startTime now : ℚ)
    (phase : ProgressPhase) (step : String) (progress : ℚ) :
    Option ProgressEventData :=
  if !callbackRegistered then
    none
  else
    let elapsed := now - startTime
    let estimatedRemaining :=
      if 0 < progress ∧ progress < 1 then elapsed / progress - elapsed else 0
    some { phase := phase, step := step, progress := progress
           elapsedTime := elapsed, estimatedTimeRemaining := estimatedRemaining }

/-- Progress phase weights. -/
def PlanningWeight : ℚ := 20 / 100
/-- `WritingWeight`. -/
def WritingWeight : ℚ := 60 / 100
/-- `EditingWeight`. -/
def EditingWeight : ℚ := 20 / 100

/-- `GetPhaseBaseProgress`. -/
def getPhaseBaseProgress : ProgressPhase → ℚ
  | .initializing => 0
  | .planning => 0
  | .writing => PlanningWeight
  | .editing => PlanningWeight + WritingWeight
  | .completed => 1
  | _ => 0

/-! ## Concrete sample inputs used by counterexamples and witnesses -/

/-- A concrete research document. -/
def sampleDoc : ResearchDocument :=
  { id := "doc1", url := "https://example.org", title := "Sample"
    content := "Sample content", keywords := ["sample"], sourceType := "web"
    relevance := 0 }

/-- A concrete per-section content assignment. -/
def sampleContentFn : Nat → SectionContent := fun i =>
  { zeroSectionContent with
    sectionID := toString i, title := "S" ++ toString i, wordCount := 100 }

/-- Writer outcomes where every section write succeeds. -/
def okOutcome : Nat → Except String SectionContent :=
  fun i => .ok (sampleContentFn i)

/-- Writer outcomes where the write of section 1 fails. -/
def failingOutcome : Nat → Except String SectionContent :=
  fun i => if i = 1 then .error "writer failed" else .ok (sampleContentFn i)

/-- A concrete editor-phase result. -/
def sampleEdit : DocumentPlan → List SectionContent → Except String ArticleDocument :=
  fun _ _ => .ok zeroArticleDocument

/-- A concrete final article. -/
def sampleArticle : ArticleDocument :=
  { zeroArticleDocument with title := "Sample Article" }

/-! ## Map lemmas -/

theorem find?_mapInsert_replace (m : List (String × ResearchDocument))
    (k : String) (v : ResearchDocument) :
    List.find? (fun p => p.1 = k) (m.map (fun p => if p.1 = k then (k, v) else p)) =
      if m.any (fun p => p.1 = k) then some (k, v) else none := by
  induction m with
  | nil => simp
  | cons q rest ih =>
    simp only [List.map_cons, List.any_cons]
    by_cases hq : q.1 = k
    · rw [List.find?_cons_of_pos _ (by simp [hq])]
      simp [hq]
    · rw [List.find?_cons_of_neg _ (by simp [hq])]
      rw [ih]
      have hd : decide (q.1 = k) = false := by simp [hq]
      simp only [hd, Bool.false_or]

theorem mapLookup_mapInsert_self (m : List (String × ResearchDocument))
    (k : String) (v : ResearchDocument) :
    mapLookup (mapInsert m k v) k = some v := by
  unfold mapLookup mapInsert
  by_cases h : m.any (fun p => p.1 = k)
  · rw [if_pos h, find?_mapInsert_replace, if_pos h]
    rfl
  · have hnone : List.find? (fun p => p.1 = k) m = none := by
      rw [List.find?_eq_none]
      intro p hp hpk
      exact h (List.any_eq_true.mpr ⟨p, hp, hpk⟩)
    rw [if_neg h, List.find?_append, hnone]
    simp

theorem mem_mapInsert (m : List (String × ResearchDocument)) (k : String)
    (v : ResearchDocument) (p : String × ResearchDocument)
    (h : p ∈ mapInsert m k v) : p ∈ m ∨ p = (k, v) := by
  unfold mapInsert at h
  by_cases ha : m.any (fun q => q.1 = k)
  · rw [if_pos ha, List.mem_map] at h
    obtain ⟨q, hq, hqe⟩ := h
    by_cases hk : q.1 = k
    · right
      rw [if_pos hk] at hqe
      exact hqe.symm
    · left
      rw [if_neg hk] at hqe
      exact hqe ▸ hq
  · rw [if_neg ha, List.mem_append] at h
    rcases h with h | h
    · exact Or.inl h
    · exact Or.inr (by simpa using h)

theorem mapLookup_mem (m : List (String × ResearchDocument)) (k : String)
    (d : ResearchDocument) (h : mapLookup m k = some d) : (k, d) ∈ m := by
  unfold mapLookup at h
  cases hf : List.find? (fun p => p.1 = k) m with
  | none => rw [hf] at h; simp at h
  | some q =>
    rw [hf] at h
    simp only [Option.map_some'] at h
    have hm := List.mem_of_find?_eq_some hf
    have hp : q.1 = k := by simpa using List.find?_some hf
    have hq : q = (k, d) := Prod.ext hp (Option.some.inj h)
    exact hq ▸ hm

/-! ## Claim theorems -/

/-- **C1** (evidence of the code slip): on the spec's scenario plan —
sections ("Intro",100), ("Body",300), ("Conclusion",100), `TotalWords` 0 —
`validatePlan` accepts, yet the plan `parsePlanResponse` hands back to the
orchestrator still carries `TotalWords = 0` while `Σ section.WordCount = 500`:
the normalizing assignment `plan.TotalWords = totalWords` in `validatePlan`
mutates a by-value copy that is discarded. -/
theorem validatePlan_totalWords_not_propagated :
    validatePlan scenarioPlan = Except.ok () ∧
    sectionWordSum scenarioPlan = 500 ∧
    parsePlanKnownFormat scenarioPlan = some scenarioPlan ∧
    (parsePlanKnownFormat scenarioPlan).map DocumentPlan.totalWords
      ≠ some (sectionWordSum scenarioPlan) := by
  exact ⟨rfl, by decide, by decide, by decide⟩

/-- **C2** (counterexample): when the bleve indexing of `AddDocument` fails,
the knowledge base is *not* left unchanged — the document was already stored
in the ID-keyed map and is not rolled back, so map and index diverge. -/
theorem addDocument_indexError_mutates_map :
    (addDocument (newKnowledgeBase "subject") sampleDoc
        (Except.error "index failure")).2 = some "index failure" ∧
    (addDocument (newKnowledgeBase "subject") sampleDoc
        (Except.error "index failure")).1.documents
      ≠ (newKnowledgeBase "subject").documents := by
  exact ⟨rfl, by decide⟩

/-- **C2** (amended): `AddDocument` stores the document in the map and then
indexes it under one exclusive critical section; if indexing fails it returns
the wrapped index error, but the map insertion persists (only the index lacks
the document) — the rest of the store is untouched either way. -/
theorem addDocument_error_behavior (kb : KnowledgeBase)
    (doc : ResearchDocument) (e : String) :
    addDocument kb doc (Except.error e)
        = ({ kb with documents := mapInsert kb.documents doc.id doc }, some e) ∧
    addDocument kb doc (Except.ok ())
        = ({ kb with documents := mapInsert kb.documents doc.id doc, indexed := kb.indexed ++ [doc.id] }, none) :=
  ⟨rfl, rfl⟩

/-- **C3** (counterexample): the editing round trip does *not* apply the
planning round trip's Origin correlation — `editArticle` accepts a
`FinalArticleEvent` whose declared Origin ID (99) differs from the request ID
(1). -/
theorem editResponse_accepts_mismatched_origin :
    receiveEditResponse 1 (AgentEvent.finalArticle 5 (some 99) sampleArticle)
        = Except.ok sampleArticle ∧
    (some 99 : Option Nat) ≠ some 1 :=
  ⟨rfl, by decide⟩

/-- **C3** (amended): only the planning round trip checks Origin —
`generatePlan` accepts a `DocumentPlanEvent` exactly when its Origin ID equals
the request's ID, while `writeSection` and `editArticle` accept any event of
the expected response type regardless of its Origin. -/
theorem origin_check_only_in_planning (reqId id : Nat) (origin : Option Nat)
    (plan : DocumentPlan) (content : SectionContent)
    (article : ArticleDocument) :
    (receivePlanResponse reqId (.documentPlan id origin plan) = Except.ok plan
        ↔ origin = some reqId) ∧
    receiveSectionResponse reqId (.sectionContent id origin content)
        = Except.ok content ∧
    receiveEditResponse reqId (.finalArticle id origin article)
        = Except.ok article := by
  refine ⟨?_, rfl, rfl⟩
  by_cases h : origin = some reqId <;> simp [receivePlanResponse, h]

/-- The documents map after `AddDocument` holds the inserted binding whether
or not the bleve indexing succeeded. -/
theorem addDocument_documents (kb : KnowledgeBase) (doc : ResearchDocument)
    (r : Except String Unit) :
    (addDocument kb doc r).1.documents = mapInsert kb.documents doc.id doc := by
  cases r <;> rfl

/-- **C7**: `AddDocument(d)` followed by `GetByID(d.ID)` succeeds and returns
the stored document verbatim — in particular every field other than
`Relevance` equals the corresponding field of `d`. `Relevance` is populated
on query results only: a search hit on `d.ID` yields `d` with `Relevance`
overwritten by the engine-assigned score. -/
theorem addDocument_getByID_roundtrip (kb : KnowledgeBase)
    (d : ResearchDocument) (r : Except String Unit) (score : ℚ) :
    getByID (addDocument kb d r).1 d.id = (d, none) ∧
    collectHits (addDocument kb d r).1 [(d.id, score)]
      = [{ d with relevance := score }] := by
  constructor
  · unfold getByID
    rw [addDocument_documents, mapLookup_mapInsert_self]
  · unfold collectHits
    simp [addDocument_documents, mapLookup_mapInsert_self]

/-- **C10**: `GetByID(id)` on a knowledge base storing no document with ID
`id` returns the zero-value `ResearchDocument` together with a non-nil
"not found" error. `GetByID` is a read under the shared lock: it is embedded
as a pure function of the state, so the knowledge base is unchanged by
construction. -/
theorem getByID_not_found (kb : KnowledgeBase) (id : String)
    (h : ∀ d, (id, d) ∉ kb.documents) :
    getByID kb id
      = (zeroResearchDocument, some ("document with ID " ++ id ++ " not found")) := by
  have hnone : mapLookup kb.documents id = none := by
    unfold mapLookup
    rw [List.find?_eq_none.mpr]
    · rfl
    · intro p hp hpk
      have h1 : p.1 = id := by simpa using hpk
      have hpe : p = (id, p.2) := Prod.ext h1 rfl
      exact h p.2 (hpe ▸ hp)
  unfold getByID
  rw [hnone]

/-- Witness for `getByID_not_found`: the empty knowledge base and the ID
"missing". -/
theorem getByID_not_found_witness :
    (∀ d, ("missing", d) ∉ (newKnowledgeBase "s").documents) ∧
    getByID (newKnowledgeBase "s") "missing"
      = (zeroResearchDocument, some ("document with ID " ++ "missing" ++ " not found")) :=
  ⟨by simp [newKnowledgeBase], getByID_not_found _ _ (by simp [newKnowledgeBase])⟩

/-- **C9**: with the writer limiter of capacity `k = MaxConcurrentWriters`,
every reachable holder count — under any interleaving of acquires and
releases by the section-write tasks — stays at or below `k`: at no instant do
more than `k` tasks hold the semaphore. -/
theorem semaphore_bounds_holders (k h : Nat) (hr : SemReachable k h) :
    h ≤ k := by
  induction hr with
  | init => exact Nat.zero_le k
  | step op _ heq ih =>
    cases op with
    | acquire =>
      simp only [semStep] at heq
      split at heq
      · cases heq
        omega
      · cases heq
    | release =>
      simp only [semStep] at heq
      split at heq
      · cases heq
        omega
      · cases heq

/-- Witness for `semaphore_bounds_holders`: one acquire on a capacity-2
limiter. -/
theorem semaphore_bounds_holders_witness : SemReachable 2 1 ∧ 1 ≤ 2 :=
  ⟨SemReachable.step SemOp.acquire SemReachable.init rfl,
   semaphore_bounds_holders 2 1
     (SemReachable.step SemOp.acquire SemReachable.init rfl)⟩

/-- **C8**: every `EmitProgress` call with a registered callback emits
exactly one event, whose `ElapsedTime` is `now - runStart` and whose
`EstimatedTimeRemaining` is `elapsed/progress - elapsed` for
`0 < progress < 1` and `0` both for `progress ≥ 1` (in particular at
`progress = 1.0`) and for `progress ≤ 0`. -/
theorem emitProgress_elapsed_and_remaining (startTime now progress : ℚ)
    (phase : ProgressPhase) (step : String) :
    ∃ e, emitProgress true startTime now phase step progress = some e ∧
      e.elapsedTime = now - startTime ∧
      (0 < progress → progress < 1 →
        e.estimatedTimeRemaining
          = (now - startTime) / progress - (now - startTime)) ∧
      (1 ≤ progress → e.estimatedTimeRemaining = 0) ∧
      (progress ≤ 0 → e.estimatedTimeRemaining = 0) := by
  refine ⟨{ phase := phase, step := step, progress := progress
            elapsedTime := now - startTime
            estimatedTimeRemaining :=
              if 0 < progress ∧ progress < 1 then
                (now - startTime) / progress - (now - startTime)
              else 0 }, rfl, rfl, ?_, ?_, ?_⟩
  · intro h1 h2
    rw [if_pos ⟨h1, h2⟩]
  · intro h1
    rw [if_neg (fun hc => by linarith [hc.2])]
  · intro h0
    rw [if_neg (fun hc => by linarith [hc.1])]

/-- Witness for `emitProgress_elapsed_and_remaining` at `progress = 1.0`. -/
theorem emitProgress_elapsed_and_remaining_witness :
    ∃ e, emitProgress true 0 6 ProgressPhase.completed "done" 1 = some e ∧
      e.elapsedTime = 6 - 0 ∧
      (0 < (1 : ℚ) → (1 : ℚ) < 1 →
        e.estimatedTimeRemaining = (6 - 0) / 1 - (6 - 0)) ∧
      ((1 : ℚ) ≤ 1 → e.estimatedTimeRemaining = 0) ∧
      ((1 : ℚ) ≤ 0 → e.estimatedTimeRemaining = 0) :=
  emitProgress_elapsed_and_remaining 0 6 1 ProgressPhase.completed "done"

/-! ## `writeSections` fold lemmas -/

/-- Folding the goroutines' critical sections computes exactly the first
recorded error: later errors never overwrite an earlier one. -/
theorem writeErr_foldl (outcome : Nat → Except String SectionContent) :
    ∀ (order : List Nat) (st : WriteState),
      (order.foldl (writeTaskStep outcome) st).writeErr =
        match st.writeErr with
        | some e => some e
        | none => firstRecordedError outcome order := by
  intro order
  induction order with
  | nil =>
    intro st
    cases hs : st.writeErr <;> simp [firstRecordedError, hs]
  | cons i rest ih =>
    intro st
    rw [List.foldl_cons, ih]
    cases ho : outcome i with
    | error e =>
      cases hs : st.writeErr <;>
        simp [writeTaskStep, ho, hs, firstRecordedError, List.findSome?_cons]
    | ok c =>
      cases hs : st.writeErr <;>
        simp [writeTaskStep, ho, hs, firstRecordedError, List.findSome?_cons]

/-- When every completing task succeeded, the fold of critical sections only
stores results into their pre-assigned slots. -/
theorem sections_foldl_ok (outcome : Nat → Except String SectionContent)
    (content : Nat → SectionContent) :
    ∀ (order : List Nat) (st : WriteState),
      (∀ i ∈ order, outcome i = Except.ok (content i)) →
      (order.foldl (writeTaskStep outcome) st).sections =
        order.foldl (fun ss i => ss.set i (some (content i))) st.sections := by
  intro order
  induction order with
  | nil => intro st _; rfl
  | cons i rest ih =>
    intro st hok
    rw [List.foldl_cons, List.foldl_cons,
      ih _ (fun j hj => hok j (List.mem_cons_of_mem _ hj))]
    congr 1
    simp [writeTaskStep, hok i (List.mem_cons_self i rest)]

/-- Slot contents after the set-fold: a slot that some completing task owns
holds that task's result, every other slot is untouched — regardless of
completion order. -/
theorem foldl_set_getElem? (content : Nat → SectionContent) :
    ∀ (order : List Nat) (slots : List (Option SectionContent)) (j : Nat),
      (order.foldl (fun ss i => ss.set i (some (content i))) slots)[j]? =
        if j ∈ order then
          (if j < slots.length then some (some (content j)) else none)
        else slots[j]? := by
  intro order
  induction order with
  | nil => intro slots j; simp
  | cons i rest ih =>
    intro slots j
    rw [List.foldl_cons, ih]
    by_cases hj : j ∈ rest
    · rw [if_pos hj, List.length_set,
        if_pos (List.mem_cons_of_mem _ hj)]
    · by_cases hij : j = i
      · subst hij
        rw [if_neg hj, List.getElem?_set, if_pos rfl,
          if_pos (List.mem_cons_self j rest)]
      · rw [if_neg hj, List.getElem?_set, if_neg (fun h => hij h.symm),
          if_neg (by simp [hij, hj])]

/-- **C4**: as soon as any one section write fails, `writeSections` returns
the first-recorded error (`Except.error` carrying, as Go does, a nil slice in
place of results — completed section content is discarded) and `WriteArticle`
returns the zero-value `ArticleDocument` together with that same error: no
partial document is produced. -/
theorem writeSections_fail_fast (plan : DocumentPlan)
    (outcome : Nat → Except String SectionContent) (order : List Nat)
    (editResult : DocumentPlan → List SectionContent → Except String ArticleDocument)
    (hfail : ∃ i ∈ order, ∃ msg, outcome i = Except.error msg) :
    ∃ e, firstRecordedError outcome order = some e ∧
      writeSections plan.sections.length outcome order = Except.error e ∧
      writeArticleRun (Except.ok plan) outcome order editResult
        = (zeroArticleDocument, some e) := by
  obtain ⟨i, hi, msg, hmsg⟩ := hfail
  cases hfe : firstRecordedError outcome order with
  | none =>
    exfalso
    unfold firstRecordedError at hfe
    have := List.findSome?_eq_none_iff.mp hfe i hi
    rw [hmsg] at this
    simp at this
  | some e =>
    have herr : (writeSectionsState plan.sections.length outcome order).writeErr
        = some e := by
      unfold writeSectionsState
      rw [writeErr_foldl]
      exact hfe
    have hws : writeSections plan.sections.length outcome order
        = Except.error e := by
      simp only [writeSections, herr]
    refine ⟨e, rfl, hws, ?_⟩
    simp only [writeArticleRun, hws]

/-- Witness for `writeSections_fail_fast`: section 1 of the three-section
scenario plan fails. -/
theorem writeSections_fail_fast_witness :
    (∃ i ∈ [0, 1, 2], ∃ msg, failingOutcome i = Except.error msg) ∧
    ∃ e, firstRecordedError failingOutcome [0, 1, 2] = some e ∧
      writeSections scenarioPlan.sections.length failingOutcome [0, 1, 2]
        = Except.error e ∧
      writeArticleRun (Except.ok scenarioPlan) failingOutcome [0, 1, 2] sampleEdit
        = (zeroArticleDocument, some e) :=
  ⟨⟨1, by decide, "writer failed", rfl⟩,
   writeSections_fail_fast scenarioPlan failingOutcome [0, 1, 2] sampleEdit
     ⟨1, by decide, "writer failed", rfl⟩⟩

/-- **C5**: when every section write succeeds, `writeSections` returns the
slice whose index-`i` entry is the content produced for section `i` — plan
order — no matter in which order the concurrent writes completed. -/
theorem writeSections_preserves_plan_order (n : Nat)
    (outcome : Nat → Except String SectionContent)
    (content : Nat → SectionContent) (order : List Nat)
    (hperm : order.Perm (List.range n))
    (hok : ∀ i < n, outcome i = Except.ok (content i)) :
    writeSections n outcome order = Except.ok ((List.range n).map content) := by
  have hmem : ∀ i ∈ order, i < n := fun i hi =>
    List.mem_range.mp (hperm.mem_iff.mp hi)
  have hok' : ∀ i ∈ order, outcome i = Except.ok (content i) := fun i hi =>
    hok i (hmem i hi)
  have herr : (writeSectionsState n outcome order).writeErr = none := by
    unfold writeSectionsState
    rw [writeErr_foldl]
    show firstRecordedError outcome order = none
    unfold firstRecordedError
    rw [List.findSome?_eq_none_iff]
    intro i hi
    rw [hok' i hi]
  have hsec : (writeSectionsState n outcome order).sections =
      order.foldl (fun ss i => ss.set i (some (content i)))
        (List.replicate n none) := by
    unfold writeSectionsState
    exact sections_foldl_ok outcome content order _ hok'
  simp only [writeSections, herr, hsec]
  congr 1
  apply List.ext_getElem?
  intro j
  rw [List.getElem?_map, foldl_set_getElem?, List.getElem?_map]
  by_cases hjn : j < n
  · have hjo : j ∈ order := hperm.mem_iff.mpr (List.mem_range.mpr hjn)
    rw [if_pos hjo, List.length_replicate, if_pos hjn, List.getElem?_range hjn]
    rfl
  · have hjo : j ∉ order := fun h => hjn (hmem j h)
    rw [if_neg hjo, List.getElem?_replicate, if_neg hjn,
      List.getElem?_eq_none (by simpa [List.length_range] using Nat.le_of_not_lt hjn)]
    rfl

/-- Witness for `writeSections_preserves_plan_order`: three sections with
completion order [1, 0, 2] — section 1 finishes before section 0, yet the
assembled slice is in plan order. -/
theorem writeSections_preserves_plan_order_witness :
    (([1, 0, 2] : List Nat).Perm (List.range 3) ∧
      ∀ i < 3, okOutcome i = Except.ok (sampleContentFn i)) ∧
    writeSections 3 okOutcome [1, 0, 2]
      = Except.ok ((List.range 3).map sampleContentFn) :=
  ⟨⟨by decide, fun i _ => rfl⟩,
   writeSections_preserves_plan_order 3 okOutcome sampleContentFn [1, 0, 2]
     (by decide) (fun i _ => rfl)⟩

/-- Every binding of a knowledge base built by `AddDocument` calls is the
`(ID, document)` pair of one of the added documents. -/
theorem buildKB_mem (subject : String)
    (adds : List (ResearchDocument × Except String Unit)) :
    ∀ p ∈ (buildKB subject adds).documents, ∃ q ∈ adds, p = (q.1.id, q.1) := by
  have h : ∀ (l : List (ResearchDocument × Except String Unit))
      (kb : KnowledgeBase) (p : String × ResearchDocument),
      p ∈ (l.foldl (fun kb q => (addDocument kb q.1 q.2).1) kb).documents →
      p ∈ kb.documents ∨ ∃ q ∈ l, p = (q.1.id, q.1) := by
    intro l
    induction l with
    | nil => intro kb p hp; exact Or.inl hp
    | cons a rest ih =>
      intro kb p hp
      rw [List.foldl_cons] at hp
      rcases ih _ p hp with h' | ⟨q, hq, he⟩
      · rw [addDocument_documents] at h'
        rcases mem_mapInsert _ _ _ _ h' with h'' | h''
        · exact Or.inl h''
        · exact Or.inr ⟨a, List.mem_cons_self a rest, h''⟩
      · exact Or.inr ⟨q, List.mem_cons_of_mem _ hq, he⟩
  intro p hp
  rcases h adds (newKnowledgeBase subject) p hp with h' | h'
  · simp [newKnowledgeBase] at h'
  · exact h'

/-- **C6**: over a knowledge base built by any sequence of `AddDocument`
calls, `Search` with a bleve reply of at most `limit` hits (the engine is
sent `Size = limit`) returns at most `limit` documents, each of which is one
of the previously added documents up to its query-time `Relevance`; index
hits whose ID is absent from the map are skipped; and on the empty knowledge
base the result is empty with no error, whatever the engine's hits. -/
theorem search_bounded_and_sound (subject : String)
    (adds : List (ResearchDocument × Except String Unit))
    (limit : Nat) (hits : List (String × ℚ))
    (hsize : hits.length ≤ limit) :
    search (buildKB subject adds) (Except.ok hits)
        = Except.ok (collectHits (buildKB subject adds) hits) ∧
    (collectHits (buildKB subject adds) hits).length ≤ limit ∧
    (∀ r ∈ collectHits (buildKB subject adds) hits,
      ∃ q ∈ adds, q.1.id = r.id ∧ r = { q.1 with relevance := r.relevance }) ∧
    search (newKnowledgeBase subject) (Except.ok hits) = Except.ok [] := by
  refine ⟨rfl, le_trans (List.length_filterMap_le _ hits) hsize, ?_, ?_⟩
  · intro r hr
    simp only [collectHits] at hr
    obtain ⟨h, hh, hfh⟩ := List.mem_filterMap.mp hr
    cases hl : mapLookup (buildKB subject adds).documents h.1 with
    | none => rw [hl] at hfh; simp at hfh
    | some doc =>
      rw [hl] at hfh
      simp only [Option.some.injEq] at hfh
      have hmem := mapLookup_mem _ _ _ hl
      obtain ⟨q, hq, hpq⟩ := buildKB_mem subject adds _ hmem
      have h2 : doc = q.1 := congrArg Prod.snd hpq
      subst h2
      refine ⟨q, hq, ?_, ?_⟩
      · rw [← hfh]
      · rw [← hfh]
  · show Except.ok (collectHits (newKnowledgeBase subject) hits) = Except.ok []
    congr 1
    rw [collectHits, List.filterMap_eq_nil_iff]
    intro a _
    rfl

/-- Witness for `search_bounded_and_sound`: one added document, one hit,
limit 2. -/
theorem search_bounded_and_sound_witness :
    ([("doc1", (1 : ℚ)/2)].length ≤ 2) ∧
    (search (buildKB "s" [(sampleDoc, (Except.ok () : Except String Unit))])
        (Except.ok [("doc1", (1 : ℚ)/2)])
      = Except.ok (collectHits (buildKB "s" [(sampleDoc, (Except.ok () : Except String Unit))])
          [("doc1", (1 : ℚ)/2)]) ∧
    (collectHits (buildKB "s" [(sampleDoc, (Except.ok () : Except String Unit))])
        [("doc1", (1 : ℚ)/2)]).length ≤ 2 ∧
    (∀ r ∈ collectHits (buildKB "s" [(sampleDoc, (Except.ok () : Except String Unit))])
        [("doc1", (1 : ℚ)/2)],
      ∃ q ∈ [(sampleDoc, (Except.ok () : Except String Unit))],
        q.1.id = r.id ∧ r = { q.1 with relevance := r.relevance }) ∧
    search (newKnowledgeBase "s") (Except.ok [("doc1", (1 : ℚ)/2)])
      = Except.ok []) :=
  ⟨by decide,
   search_bounded_and_sound "s" [(sampleDoc, (Except.ok () : Except String Unit))] 2
     [("doc1", (1 : ℚ)/2)] (by decide)⟩

end Ghostwriter
